import Mathlib

/-!
Shallow embedding of the View-Finder entity-resolution pipeline.

Text is modelled as a sequence of Unicode code points (`List Nat`), matching
Python strings, which are sequences of code points.  External services
(Wikipedia content provider, pageview provider, LLM completion service, JSON
decoder) are modelled as oracle parameters; an exception raised by a service
is modelled as an explicit outcome constructor carrying the message
rendered by the Python f-string.
-/

namespace ViewFinder

/-- Strings are sequences of Unicode code points, as in Python. -/
abbrev Str := List Nat

/-- Code points of a Lean string literal, used to write concrete `Str` values. -/
def txt (s : String) : Str := s.toList.map Char.toNat

/-- Whitespace test matching Python `str.isspace` / default `str.strip` /
`str.split`: ASCII whitespace and separators plus the Unicode space
characters. -/
def isPyWs (n : Nat) : Bool :=
  decide ((9 ≤ n ∧ n ≤ 13) ∨ (28 ≤ n ∧ n ≤ 32) ∨ n = 133 ∨ n = 160 ∨ n = 5760 ∨
    (8192 ≤ n ∧ n ≤ 8202) ∨ n = 8232 ∨ n = 8233 ∨ n = 8239 ∨ n = 8287 ∨ n = 12288)

/-- Quote characters removed by the Python idiom used in the source
(strip of a double quote, code 34, and a single quote, code 39). -/
def isQuote (n : Nat) : Bool := decide (n = 34 ∨ n = 39)

/-- ASCII lower-casing of one code point (Python `str.lower` restricted to the
ASCII range; the source only lower-cases ASCII-folded text). -/
def lowerNat (n : Nat) : Nat := if 65 ≤ n ∧ n ≤ 90 then n + 32 else n

/-- ASCII upper-casing of one code point (first letter of Python
`str.capitalize`; identity outside the ASCII letters). -/
def upperNat (n : Nat) : Nat := if 97 ≤ n ∧ n ≤ 122 then n - 32 else n

/-- Finite model of Unicode NFKD decomposition (`unicodedata.normalize("NFKD", ...)`)
restricted to the code points exercised in this development: the pre-composed
letters of the accented example decompose into a base letter followed by a
combining mark (code 197 is the pre-composed capital A with ring above, code
246 the pre-composed o with diaeresis); every code point with no canonical or
compatibility decomposition — in particular every ASCII code point — maps to
itself, as in Unicode. -/
def nfkdNat (n : Nat) : List Nat :=
  if n = 197 then [65, 778]
  else if n = 246 then [111, 776]
  else [n]

/-- Strip of the characters satisfying `p` from both ends
(Python `str.strip(chars)`). -/
def stripChars (p : Nat → Bool) (l : Str) : Str :=
  ((l.dropWhile p).reverse.dropWhile p).reverse

/-- Python `str.strip()` (default whitespace strip). -/
def stripWs (l : Str) : Str := stripChars isPyWs l

/-- Python `str.split()` with no separator: maximal runs of
non-whitespace characters, empties discarded.  `acc` holds the reversed
current run. -/
def pySplitAux : Str → Str → List Str
  | [], acc => if acc = [] then [] else [acc.reverse]
  | c :: rest, acc =>
    if isPyWs c then
      (if acc = [] then pySplitAux rest [] else acc.reverse :: pySplitAux rest [])
    else pySplitAux rest (c :: acc)

/-- Python `text.split()`. -/
def pySplit (l : Str) : List Str := pySplitAux l []

/-- Join a list of words with a separator (Python `sep.join(words)`). -/
def joinSep (sep : Str) : List Str → Str
  | [] => []
  | [w] => w
  | w :: ws => w ++ sep ++ joinSep sep ws

/-- Python `str.capitalize`: first character upper-cased, the rest
lower-cased (ASCII case mapping model). -/
def pyCapitalize : Str → Str
  | [] => []
  | c :: cs => upperNat c :: cs.map lowerNat

/-- Python `string.capwords`: split on whitespace, capitalize each word, join
with single spaces. -/
def capwords (l : Str) : Str := joinSep (txt " ") ((pySplit l).map pyCapitalize)

/-! Embedding of `src/utils/text_utils.py`. -/

/-- `normalize_text` from `src/utils/text_utils.py`: NFKD-decompose, drop
non-ASCII code points (`encode("ascii", "ignore")`), lower-case, strip
surrounding whitespace; empty input short-circuits to the empty string. -/
def normalize_text (l : Str) : Str :=
  if l = [] then []
  else stripWs (((l.flatMap nfkdNat).filter (fun n => n < 128)).map lowerNat)

/-- `in_list_case_insensitive` from `src/utils/text_utils.py`. -/
def in_list_case_insensitive (item : Str) (item_list : List Str) : Bool :=
  item_list.any (fun x => normalize_text x = normalize_text item)

/-- The closed set of minor words lower-cased by `to_title_case` unless they
are the first word. -/
def special_words : List Str :=
  [txt "Of", txt "And", txt "The", txt "In", txt "On", txt "At", txt "To",
   txt "For", txt "With", txt "By"]

/-- `to_title_case` from `src/utils/text_utils.py`: `capwords`, then lower-case
each non-initial word belonging to the closed minor-word set, rejoining with
single spaces. -/
def to_title_case (l : Str) : Str :=
  if l = [] then l
  else
    let t := capwords l
    let words := pySplit t
    joinSep (txt " ")
      (words.enum.map (fun iw =>
        if 1 ≤ iw.1 ∧ iw.2 ∈ special_words then iw.2.map lowerNat else iw.2))

/-- `sameEntity` of spec §4.1: two strings denote the same entity iff their
normalized forms are equal (the comparison used by
`in_list_case_insensitive` and the merge step). -/
def sameEntity (a b : Str) : Bool := normalize_text a = normalize_text b

/-! Embedding of `src/utils/llm_utils.py`.  The LLM completion service is an
oracle mapping a prompt to an outcome: a reply text, an `anthropic.APIError`,
or any other raised exception (both carrying the rendered message). -/

/-- Outcome of one call to the LLM completion service. -/
inductive LlmOutcome where
  | reply (text : Str)
  | apiError (msg : Str)
  | exn (msg : Str)
deriving DecidableEq

/-- Model of `anthropic.HUMAN_PROMPT`. -/
def humanTag : Str := txt "\n\nHuman:"

/-- Model of `anthropic.AI_PROMPT`. -/
def aiTag : Str := txt "\n\nAssistant:"

/-- Prompt built by `structure_qa_pairs` around the raw input text (abridged
instruction text; its exact wording is opaque to the logic, which only feeds
it to the LLM oracle). -/
def structurePrompt (text_input : Str) : Str :=
  humanTag ++
  txt " Here is a block of text containing one or more trivia question-answer pairs. Structure the output as a JSON list of objects with a question key and an answer key.\n\nInput Text:\n" ++
  text_input ++ txt "\n\nOutput the JSON list directly, without any introductory text.\n" ++ aiTag

/-- JSON values, as decoded by Python `json.loads`. -/
inductive Json where
  | null
  | bool (b : Bool)
  | num (n : Int)
  | str (s : Str)
  | arr (items : List Json)
  | obj (fields : List (Str × Json))

/-- Environment of `structure_qa_pairs`: the LLM oracle and the Python
standard-library JSON decoder (an oracle; `none` models `JSONDecodeError`). -/
structure QaEnv where
  llm : Str → LlmOutcome
  jsonLoads : Str → Option Json

/-- Semantics of the anchored extraction `re.search(r"^\s*(\[.*?\])\s*$", t, re.DOTALL)`:
the whole response, less surrounding whitespace, must be a bracketed group
starting with a left square bracket and ending with a right square bracket
(a right square bracket is not whitespace, so the lazy group is forced up to
the final one). -/
def extractJsonArray (t : Str) : Option Str :=
  let core := stripWs t
  match core with
  | 91 :: _ => if core.getLast? = some 93 then some core else none
  | _ => none

/-- Validation applied to the decoded JSON in `structure_qa_pairs`: the value
is a list whose members are all objects containing both a question key and an
answer key. -/
def isQaList : Json → Bool
  | .arr items =>
    items.all (fun it =>
      match it with
      | .obj fields =>
        fields.any (fun kv => kv.1 = txt "question") &&
        fields.any (fun kv => kv.1 = txt "answer")
      | _ => false)
  | _ => false

/-- `structure_qa_pairs` from `src/utils/llm_utils.py`.  Result is a tri-state:
`some pairs` (the decoded list), `some []` (valid empty result — in the source
the early return for blank input), `none` (the failure signal, the source's
`None`).  Every failure path of the source (no JSON array extracted, JSON
decode error, shape validation failure, `anthropic.APIError`, any other
exception) returns `none`. -/
def structure_qa_pairs (env : QaEnv) (text_input : Str) : Option (List Json) :=
  if stripWs text_input = [] then some []
  else
    match env.llm (structurePrompt text_input) with
    | .reply t =>
      match extractJsonArray t with
      | some js =>
        match env.jsonLoads js with
        | some v =>
          if isQaList v then
            match v with
            | .arr items => some items
            | _ => none
          else none
        | none => none
      | none => none
    | .apiError _ => none
    | .exn _ => none

/-- Prompt built by `resolve_disambiguation`: only the first 15 candidate
options are presented to the LLM (`options[:15]`); instruction text abridged,
and opaque to the logic. -/
def disambigPrompt (entity_name : Str) (options : List Str) (question answer : Str) : Str :=
  humanTag ++
  txt " We encountered multiple possible Wikipedia pages for the entity \"" ++ entity_name ++
  txt "\".\nTrivia Question: " ++ question ++
  txt "\nAnswer: " ++ answer ++
  txt "\nPossible Wikipedia pages:\n" ++
  joinSep (txt "\n") ((options.take 15).map (fun o => txt "- " ++ o)) ++
  txt "\n\nPlease choose the single option that best matches the context of the question and answer. If none are clearly relevant, respond with \"NONE\".\nRespond ONLY with the exact page title (case sensitive) or \"NONE\".\n" ++
  aiTag

/-- `resolve_disambiguation` from `src/utils/llm_utils.py`: absent when the
client is absent or the option list empty; otherwise the LLM reply is trimmed
and stripped of surrounding quotes and must be non-empty, differ from the
NONE sentinel, and be a member of the full (untruncated) option list;
API errors and any other exception degrade to absent. -/
def resolve_disambiguation (clientPresent : Bool) (llm : Str → LlmOutcome)
    (entity_name : Str) (options : List Str) (question answer : Str) : Option Str :=
  if ¬clientPresent ∨ options = [] then none
  else
    match llm (disambigPrompt entity_name options question answer) with
    | .reply t =>
      let title := stripChars isQuote (stripWs t)
      if title ≠ [] ∧ title ≠ txt "NONE" ∧ title ∈ options then some title else none
    | .apiError _ => none
    | .exn _ => none

/-! Embedding of `src/utils/wiki_utils.py`.  The Wikipedia content provider
and the pageview provider are oracles; an exception raised while fetching or
reading a page is modelled as the `exn` outcome of the fetch (the source
catches it in the enclosing handler of the same fetch). -/

/-- A materialized Wikipedia page as surfaced by `wikipediaapi`:
existence flag, canonical title, extracted text, full URL, category titles,
outbound link titles. -/
structure WikiPage where
  pageExists : Bool
  title : Str
  text : Str
  fullurl : Str
  categories : List Str
  links : List Str
deriving DecidableEq

/-- Outcome of one page fetch. -/
inductive Fetch where
  | ok (p : WikiPage)
  | exn (msg : Str)
deriving DecidableEq

/-- Outcome of one pageview call (`pageviewapi.per_article`): a list of daily
items each carrying a view count, the distinguished `ZeroViewsError`, or any
other exception. -/
inductive PvOutcome where
  | items (views : List Nat)
  | zeroViews
  | exn (msg : Str)
deriving DecidableEq

/-- Environment of `get_wikipedia_data`: page fetcher, pageview provider
(title and day count), LLM oracle, and client presence. -/
structure WikiEnv where
  fetchPage : Str → Fetch
  pageviews : Str → Nat → PvOutcome
  llm : Str → LlmOutcome
  clientPresent : Bool

/-- `WikiResult`: the dictionary returned by `get_wikipedia_data`. -/
structure WikiResult where
  title : Str
  length : Option Nat
  views : Option Nat
  url : Option Str
  found : Bool
  error : Option Str
deriving DecidableEq

/-- Category title marking disambiguation pages. -/
def disambigCategory : Str := txt "Category:All disambiguation pages"

/-- Error message for the unresolved-disambiguation terminal state:
the original (title-cased) entity name plus up to five candidate options. -/
def disambigErrorMsg (entity_name_title_case : Str) (options : List Str) : Str :=
  txt "Disambiguation: " ++ entity_name_title_case ++ txt ". Options: " ++
  joinSep (txt ", ") (options.take 5) ++ txt "..."

/-- `_fetch_page_views` from `src/utils/wiki_utils.py`: sum of the daily view
counts; `ZeroViewsError` yields 0; any other exception yields the error
string (here the right summand). -/
def fetch_page_views (env : WikiEnv) (page_title : Str) (days_to_fetch : Nat) : Sum Nat Str :=
  match env.pageviews page_title days_to_fetch with
  | .items vs => .inl vs.sum
  | .zeroViews => .inl 0
  | .exn m => .inr (txt "Pageview fetch error: " ++ m)

/-- `_populate_from_page` from `src/utils/wiki_utils.py`: marks the result
found, takes the canonical title, text length and URL from the page, then
fetches pageviews; on pageview failure `views` stays absent and the error
slot receives the pageview message unless a previous truthy error is already
recorded (the Python `page_info.get("error") or views_result`). -/
def populate_from_page (env : WikiEnv) (info : WikiResult) (page : WikiPage)
    (days : Nat) : WikiResult :=
  let base := { info with
                found := true,
                title := page.title,
                length := some page.text.length,
                url := some page.fullurl }
  match fetch_page_views env page.title days with
  | .inl n => { base with views := some n }
  | .inr e =>
    { base with
      views := none,
      error := match info.error with
               | some prev => if prev = [] then some e else some prev
               | none => some e }

/-- `get_wikipedia_data` from `src/utils/wiki_utils.py`: title-case the name,
fetch the page; not existing is the not-found terminal state; a
disambiguation page (category membership) collects the outbound links (with
the synthetic single candidate fallback), asks the Disambiguation Resolver,
and follows the choice exactly one level — a chosen page that raises on
fetch, does not exist, or is itself a disambiguation page ends in an error
state; any exception around the initial fetch is converted to the
unexpected-error result. -/
def get_wikipedia_data (env : WikiEnv) (entity_name : Str)
    (question answer : Str) (days : Nat) : WikiResult :=
  let entity_name_title_case := to_title_case entity_name
  let page_info : WikiResult :=
    { title := entity_name_title_case,
      length := none,
      views := none,
      url := none,
      found := false,
      error := none }
  match env.fetchPage entity_name_title_case with
  | .exn gen_err =>
    { page_info with error := some (txt "Unexpected error: " ++ gen_err) }
  | .ok page =>
    if page.pageExists then
      if disambigCategory ∈ page.categories then
        let options0 := page.links
        let options :=
          if options0 = [] then [entity_name_title_case ++ txt " (disambiguation)"]
          else options0
        match resolve_disambiguation env.clientPresent env.llm
            entity_name_title_case options question answer with
        | some selected_title =>
          (match env.fetchPage selected_title with
           | .exn resolve_err =>
             { page_info with
               error := some (txt "Error fetching resolved page " ++ [39] ++
                              selected_title ++ [39] ++ txt ": " ++ resolve_err) }
           | .ok resolved_page =>
             if resolved_page.pageExists ∧ disambigCategory ∉ resolved_page.categories then
               populate_from_page env page_info resolved_page days
             else
               { page_info with
                 error := some (disambigErrorMsg entity_name_title_case options) })
        | none =>
          { page_info with
            error := some (disambigErrorMsg entity_name_title_case options) }
      else
        populate_from_page env page_info page days
    else
      { page_info with error := some (txt "Page not found on Wikipedia.") }

/-! Embedding of the entity-merge step of `src/app.py` (the `combined_entities`
dictionary).  A Python dict is an association list in key-insertion order;
assigning to an existing key replaces its value in place. -/

/-- Python dict assignment `d[k] = v`: replace the value in place when the key
is present, append a fresh binding otherwise. -/
def dictInsert (d : List (Str × Str)) (k v : Str) : List (Str × Str) :=
  if d.any (fun p => p.1 = k) then
    d.map (fun p => if p.1 = k then (k, v) else p)
  else d ++ [(k, v)]

/-- Python dict lookup `d[k]` (first binding with the key). -/
def lookupKey : List (Str × Str) → Str → Option Str
  | [], _ => none
  | (k1, v) :: d, k => if k1 = k then some v else lookupKey d k

/-- The entity-merge loop of `src/app.py` lines 97–103: candidates (from
answer extraction, optional question extraction, and the key-entity
identifier, in that order, flattened; `none` models the Python `None` the
key-entity identifier may produce) are folded into the dictionary keyed by
`normalize_text`, skipping falsy (absent or empty) candidates and storing the
original surface form as the value. -/
def combined_entities (candidates : List (Option Str)) : List (Str × Str) :=
  candidates.foldl
    (fun d oe =>
      match oe with
      | some e => if e ≠ [] then dictInsert d (normalize_text e) e else d
      | none => d)
    []

/-- Surface form the merge actually retains per key: the last non-empty
candidate whose normalized form is the key. -/
def lastSurface (candidates : List (Option Str)) (k : Str) : Option Str :=
  candidates.foldl
    (fun acc oe =>
      match oe with
      | some e => if e ≠ [] ∧ normalize_text e = k then some e else acc
      | none => acc)
    none

/-- Surface form the claim says the merge retains per key: the first
non-empty candidate whose normalized form is the key. -/
def firstSurface (candidates : List (Option Str)) (k : Str) : Option Str :=
  candidates.foldl
    (fun acc oe =>
      match oe with
      | some e =>
        if acc = none ∧ e ≠ [] ∧ normalize_text e = k then some e else acc
      | none => acc)
    none

/-- `unique_entities_to_fetch` of `src/app.py` line 104: the dictionary values
sorted case-insensitively (Python `sorted(values, key=str.lower)`; a stable
merge sort on the lower-cased keys). -/
def unique_entities_to_fetch (candidates : List (Option Str)) : List Str :=
  ((combined_entities candidates).map Prod.snd).mergeSort
    (fun a b => a.map lowerNat ≤ b.map lowerNat)

/-- Code points of the accented example word of spec §8 (pre-composed capital
A with ring above, then n g s t r, pre-composed o with diaeresis, then m). -/
def angstromAccented : Str := [197, 110, 103, 115, 116, 114, 246, 109]

/-! Concrete environments used in witnesses and counterexamples. -/

/-- Environment in which every title resolves to a non-existent page. -/
def envNotFound : WikiEnv :=
  { fetchPage := fun _ => .ok
      { pageExists := false, title := [], text := [], fullurl := [],
        categories := [], links := [] },
    pageviews := fun _ _ => .zeroViews,
    llm := fun _ => .reply [],
    clientPresent := true }

/-- Environment in which every page fetch raises. -/
def envExn : WikiEnv :=
  { fetchPage := fun _ => .exn (txt "boom"),
    pageviews := fun _ _ => .zeroViews,
    llm := fun _ => .reply [],
    clientPresent := true }

/-- An ordinary article page. -/
def pageParis : WikiPage :=
  { pageExists := true, title := txt "Paris", text := txt "abc",
    fullurl := txt "https://en.wikipedia.org/wiki/Paris",
    categories := [], links := [] }

/-- Environment in which every title is an article whose pageview fetch
raises. -/
def envPvFail : WikiEnv :=
  { fetchPage := fun _ => .ok pageParis,
    pageviews := fun _ _ => .exn (txt "timeout"),
    llm := fun _ => .reply [],
    clientPresent := true }

/-- A disambiguation page whose only outbound link is the title B. -/
def pageDisambigParis : WikiPage :=
  { pageExists := true, title := txt "Paris", text := [], fullurl := [],
    categories := [disambigCategory], links := [txt "B"] }

/-- A page that is itself a disambiguation page, used as the chosen
candidate. -/
def pageDisambigB : WikiPage :=
  { pageExists := true, title := txt "B", text := [], fullurl := [],
    categories := [disambigCategory], links := [] }

/-- Environment driving the resolver into the disambiguation branch, where
the LLM picks the candidate B whose fetch then raises. -/
def envResolvedExn : WikiEnv :=
  { fetchPage := fun t => if t = txt "B" then .exn (txt "boom")
                          else .ok pageDisambigParis,
    pageviews := fun _ _ => .zeroViews,
    llm := fun _ => .reply (txt "B"),
    clientPresent := true }

/-- Environment driving the resolver into the disambiguation branch, where
the LLM picks the candidate B which is itself a disambiguation page. -/
def envDoubleDisambig : WikiEnv :=
  { fetchPage := fun t => if t = txt "B" then .ok pageDisambigB
                          else .ok pageDisambigParis,
    pageviews := fun _ _ => .zeroViews,
    llm := fun _ => .reply (txt "B"),
    clientPresent := true }

/-! Auxiliary lemmas about the text primitives. -/

/-- Any element surviving a both-ends strip was in the original list. -/
theorem mem_of_mem_stripChars {p : Nat → Bool} {l : Str} {c : Nat}
    (h : c ∈ stripChars p l) : c ∈ l := by
  unfold stripChars at h
  rw [List.mem_reverse] at h
  have h1 := List.Sublist.mem h (List.dropWhile_sublist p)
  rw [List.mem_reverse] at h1
  exact List.Sublist.mem h1 (List.dropWhile_sublist p)

/-- A list whose head does not satisfy `p` is a `dropWhile p` fixed point. -/
theorem dropWhile_eq_self_of_head {p : Nat → Bool} {l : Str}
    (h : ∀ x, l.head? = some x → p x = false) : l.dropWhile p = l := by
  cases l with
  | nil => rfl
  | cons a t => simp [List.dropWhile_cons, h a rfl]

/-- Dropping a suffix (via reverse) keeps the head, unless nothing is left. -/
theorem revDrop_eq_nil_or_head (p : Nat → Bool) (a : Str) :
    (a.reverse.dropWhile p).reverse = [] ∨
    ((a.reverse.dropWhile p).reverse).head? = a.head? := by
  cases a with
  | nil => left; rfl
  | cons x xs =>
    rw [List.reverse_cons, List.dropWhile_append]
    cases he : (xs.reverse.dropWhile p).isEmpty with
    | true =>
      cases hx : p x with
      | true => left; simp [List.dropWhile_cons, hx]
      | false => right; simp [List.dropWhile_cons, hx]
    | false =>
      right
      rw [if_neg (by simp [he]), List.reverse_append]
      rfl

/-- Both-ends stripping is idempotent. -/
theorem stripChars_idem (p : Nat → Bool) (l : Str) :
    stripChars p (stripChars p l) = stripChars p l := by
  unfold stripChars
  have hb1 : (((l.dropWhile p).reverse.dropWhile p).reverse).dropWhile p =
      ((l.dropWhile p).reverse.dropWhile p).reverse := by
    apply dropWhile_eq_self_of_head
    intro x hx
    rcases revDrop_eq_nil_or_head p (l.dropWhile p) with h | h
    · rw [h] at hx; cases hx
    · rw [h] at hx
      have h2 := List.head?_dropWhile_not p l
      rw [hx] at h2
      exact h2
  rw [hb1, List.reverse_reverse, List.dropWhile_idempotent]

/-- Whitespace stripping is idempotent. -/
theorem stripWs_idem (l : Str) : stripWs (stripWs l) = stripWs l :=
  stripChars_idem _ _

/-- ASCII lower-casing is idempotent. -/
theorem lowerNat_idem (n : Nat) : lowerNat (lowerNat n) = lowerNat n := by
  simp only [lowerNat]
  split_ifs <;> omega

/-- ASCII lower-casing preserves the ASCII range. -/
theorem lowerNat_lt_128 {n : Nat} (h : n < 128) : lowerNat n < 128 := by
  simp only [lowerNat]
  split_ifs <;> omega

/-- NFKD is the identity on ASCII code points. -/
theorem nfkdNat_ascii {n : Nat} (h : n < 128) : nfkdNat n = [n] := by
  simp only [nfkdNat]
  rw [if_neg (by omega), if_neg (by omega)]

/-- NFKD acts as the identity on an all-ASCII string. -/
theorem flatMap_nfkd_ascii {l : Str} (h : ∀ c ∈ l, c < 128) :
    l.flatMap nfkdNat = l := by
  induction l with
  | nil => rfl
  | cons a t ih =>
    rw [List.flatMap_cons, nfkdNat_ascii (h a (List.mem_cons_self a t)),
      ih (fun c hc => h c (List.mem_cons_of_mem a hc))]
    rfl

/-- Mapping a function fixing every member is the identity. -/
theorem map_fix {f : Nat → Nat} {l : Str} (h : ∀ c ∈ l, f c = c) :
    l.map f = l := by
  induction l with
  | nil => rfl
  | cons a t ih =>
    rw [List.map_cons, h a (List.mem_cons_self a t),
      ih (fun c hc => h c (List.mem_cons_of_mem a hc))]

/-- Every code point of a normalized string is ASCII and lower-case-fixed. -/
theorem mem_normalize_fix {l : Str} {c : Nat} (h : c ∈ normalize_text l) :
    lowerNat c = c ∧ c < 128 := by
  unfold normalize_text at h
  split at h
  · cases h
  · have h1 := mem_of_mem_stripChars h
    rw [List.mem_map] at h1
    obtain ⟨x, hx, hxc⟩ := h1
    rw [List.mem_filter] at hx
    have hxlt : x < 128 := by simpa using hx.2
    exact ⟨hxc ▸ lowerNat_idem x, hxc ▸ lowerNat_lt_128 hxlt⟩

/-- Normalization is idempotent. -/
theorem normalize_text_idem (l : Str) :
    normalize_text (normalize_text l) = normalize_text l := by
  by_cases h0 : normalize_text l = []
  · rw [h0]; rfl
  · have hl : l ≠ [] := by
      intro he
      exact h0 (by rw [he]; rfl)
    conv_lhs => rw [normalize_text]
    rw [if_neg h0,
      flatMap_nfkd_ascii (fun c hc => (mem_normalize_fix hc).2),
      List.filter_eq_self.mpr
        (fun c hc => by simpa using (mem_normalize_fix hc).2),
      map_fix (fun c hc => (mem_normalize_fix hc).1)]
    have hnl : normalize_text l =
        stripWs (((l.flatMap nfkdNat).filter (fun n => n < 128)).map lowerNat) := by
      rw [normalize_text, if_neg hl]
    rw [hnl, stripWs_idem]

/-! Auxiliary lemmas about the dict model of the merge step. -/

/-- A dict with no binding for a key looks the key up to nothing. -/
theorem lookupKey_eq_none_of_any_false {d : List (Str × Str)} {k : Str}
    (h : d.any (fun p => p.1 = k) = false) : lookupKey d k = none := by
  induction d with
  | nil => rfl
  | cons p d ih =>
    rw [List.any_cons, Bool.or_eq_false_iff] at h
    have hk : p.1 ≠ k := by simpa using h.1
    obtain ⟨k1, v⟩ := p
    simp only [lookupKey]
    rw [if_neg hk]
    exact ih h.2

/-- Replacing the value bound to a present key makes lookups find it. -/
theorem lookupKey_map_replace (d : List (Str × Str)) (k v : Str)
    (h : d.any (fun p => p.1 = k) = true) :
    lookupKey (d.map (fun p => if p.1 = k then (k, v) else p)) k = some v := by
  induction d with
  | nil => cases h
  | cons p d ih =>
    obtain ⟨k1, v1⟩ := p
    simp only [List.map_cons]
    by_cases hk : k1 = k
    · subst hk
      rw [if_pos rfl]
      simp [lookupKey]
    · rw [if_neg hk]
      simp only [lookupKey]
      rw [if_neg hk]
      apply ih
      rw [List.any_cons] at h
      rcases Bool.or_eq_true_iff.mp h with h1 | h1
      · exact absurd (by simpa using h1) hk
      · exact h1

/-- Appending a binding for an absent key makes lookups find it. -/
theorem lookupKey_append_single (d : List (Str × Str)) (k v : Str)
    (h : lookupKey d k = none) :
    lookupKey (d ++ [(k, v)]) k = some v := by
  induction d with
  | nil => simp [List.nil_append, lookupKey]
  | cons p d ih =>
    obtain ⟨k1, v1⟩ := p
    rw [List.cons_append]
    simp only [lookupKey] at h ⊢
    by_cases hk : k1 = k
    · rw [if_pos hk] at h; cases h
    · rw [if_neg hk] at h ⊢
      exact ih h

/-- Looking up the inserted key finds the inserted value. -/
theorem lookupKey_dictInsert_self (d : List (Str × Str)) (k v : Str) :
    lookupKey (dictInsert d k v) k = some v := by
  unfold dictInsert
  by_cases hany : d.any (fun p => p.1 = k) = true
  · rw [if_pos hany]
    exact lookupKey_map_replace d k v hany
  · rw [if_neg hany]
    exact lookupKey_append_single d k v
      (lookupKey_eq_none_of_any_false (Bool.eq_false_iff.mpr hany))

/-- Replacing the value under one key leaves other lookups unchanged. -/
theorem lookupKey_map_replace_other (d : List (Str × Str)) (k k1 v : Str)
    (hne : k1 ≠ k) :
    lookupKey (d.map (fun p => if p.1 = k1 then (k1, v) else p)) k =
      lookupKey d k := by
  induction d with
  | nil => rfl
  | cons p d ih =>
    obtain ⟨k2, v2⟩ := p
    simp only [List.map_cons]
    by_cases hk : k2 = k1
    · subst hk
      rw [if_pos rfl]
      simp only [lookupKey]
      rw [if_neg hne, if_neg hne]
      exact ih
    · rw [if_neg hk]
      simp only [lookupKey]
      by_cases hk2 : k2 = k
      · rw [if_pos hk2, if_pos hk2]
      · rw [if_neg hk2, if_neg hk2]
        exact ih

/-- Appending a binding under one key leaves other lookups unchanged. -/
theorem lookupKey_append_single_other (d : List (Str × Str)) (k k1 v : Str)
    (hne : k1 ≠ k) :
    lookupKey (d ++ [(k1, v)]) k = lookupKey d k := by
  induction d with
  | nil => simp only [List.nil_append, lookupKey, if_neg hne]
  | cons p d ih =>
    obtain ⟨k2, v2⟩ := p
    rw [List.cons_append]
    simp only [lookupKey]
    by_cases hk2 : k2 = k
    · rw [if_pos hk2, if_pos hk2]
    · rw [if_neg hk2, if_neg hk2]
      exact ih

/-- Insertion under a different key does not change a lookup. -/
theorem lookupKey_dictInsert_other (d : List (Str × Str)) (k k1 v : Str)
    (h : k1 ≠ k) : lookupKey (dictInsert d k1 v) k = lookupKey d k := by
  unfold dictInsert
  split
  · exact lookupKey_map_replace_other d k k1 v h
  · exact lookupKey_append_single_other d k k1 v h

/-- Folding the merge loop: the lookup of a key after folding the candidate
list equals folding the last-match accumulator from the lookup in the
initial dict. -/
theorem merge_foldl_lookup (cs : List (Option Str)) :
    ∀ (d : List (Str × Str)) (k : Str),
    lookupKey (cs.foldl (fun d oe =>
      match oe with
      | some e => if e ≠ [] then dictInsert d (normalize_text e) e else d
      | none => d) d) k =
    cs.foldl (fun acc oe =>
      match oe with
      | some e => if e ≠ [] ∧ normalize_text e = k then some e else acc
      | none => acc) (lookupKey d k) := by
  induction cs with
  | nil => intro d k; rfl
  | cons oe cs ih =>
    intro d k
    cases oe with
    | none => exact ih d k
    | some e =>
      simp only [List.foldl_cons]
      by_cases he : e = []
      · rw [if_neg (by simp [he]), if_neg (by simp [he])]
        exact ih d k
      · rw [if_pos he]
        by_cases hk : normalize_text e = k
        · rw [if_pos ⟨he, hk⟩, ih]
          rw [← hk, lookupKey_dictInsert_self]
        · rw [if_neg (by intro hc; exact hk hc.2), ih,
            lookupKey_dictInsert_other d k _ e hk]

/-! Auxiliary lemmas about splitting, joining and title-casing, used to show
that title-casing a name with a non-whitespace character is non-empty. -/

/-- Splitting a string holding a non-whitespace character (or carrying a
non-empty run) yields at least one word. -/
theorem pySplitAux_ne_nil : ∀ (l acc : Str),
    ((∃ c ∈ l, isPyWs c = false) ∨ acc ≠ []) → pySplitAux l acc ≠ [] := by
  intro l
  induction l with
  | nil =>
    intro acc h
    rcases h with ⟨c, hc, _⟩ | h
    · cases hc
    · unfold pySplitAux
      rw [if_neg h]
      exact List.cons_ne_nil _ _
  | cons c t ih =>
    intro acc h
    unfold pySplitAux
    by_cases hc : isPyWs c = true
    · rw [if_pos hc]
      by_cases hacc : acc = []
      · rw [if_pos hacc]
        apply ih
        left
        rcases h with ⟨x, hx, hxf⟩ | h
        · rcases List.mem_cons.mp hx with rfl | hx
          · rw [hc] at hxf; cases hxf
          · exact ⟨x, hx, hxf⟩
        · exact absurd hacc h
      · rw [if_neg hacc]
        exact List.cons_ne_nil _ _
    · rw [if_neg hc]
      apply ih
      right
      exact List.cons_ne_nil _ _

/-- Every word produced by splitting is non-empty. -/
theorem mem_pySplitAux_ne_nil : ∀ (l acc w : Str),
    w ∈ pySplitAux l acc → w ≠ [] := by
  intro l
  induction l with
  | nil =>
    intro acc w hw
    unfold pySplitAux at hw
    by_cases hacc : acc = []
    · rw [if_pos hacc] at hw; cases hw
    · rw [if_neg hacc] at hw
      rcases List.mem_singleton.mp hw with rfl
      simpa using hacc
  | cons c t ih =>
    intro acc w hw
    unfold pySplitAux at hw
    by_cases hc : isPyWs c = true
    · rw [if_pos hc] at hw
      by_cases hacc : acc = []
      · rw [if_pos hacc] at hw
        exact ih [] w hw
      · rw [if_neg hacc] at hw
        rcases List.mem_cons.mp hw with rfl | hw
        · simpa using hacc
        · exact ih [] w hw
    · rw [if_neg hc] at hw
      exact ih (c :: acc) w hw

/-- Every code point of every word produced by splitting is
non-whitespace. -/
theorem mem_pySplitAux_no_ws : ∀ (l acc : Str),
    (∀ c ∈ acc, isPyWs c = false) →
    ∀ w ∈ pySplitAux l acc, ∀ x ∈ w, isPyWs x = false := by
  intro l
  induction l with
  | nil =>
    intro acc hacc w hw x hx
    unfold pySplitAux at hw
    by_cases h : acc = []
    · rw [if_pos h] at hw; cases hw
    · rw [if_neg h] at hw
      rcases List.mem_singleton.mp hw with rfl
      exact hacc x (List.mem_reverse.mp hx)
  | cons c t ih =>
    intro acc hacc w hw x hx
    unfold pySplitAux at hw
    by_cases hc : isPyWs c = true
    · rw [if_pos hc] at hw
      by_cases h : acc = []
      · rw [if_pos h] at hw
        exact ih [] (fun y hy => absurd hy (List.not_mem_nil y)) w hw x hx
      · rw [if_neg h] at hw
        rcases List.mem_cons.mp hw with rfl | hw
        · exact hacc x (List.mem_reverse.mp hx)
        · exact ih [] (fun y hy => absurd hy (List.not_mem_nil y)) w hw x hx
    · rw [if_neg hc] at hw
      refine ih (c :: acc) ?_ w hw x hx
      intro y hy
      rcases List.mem_cons.mp hy with rfl | hy
      · exact Bool.eq_false_iff.mpr hc
      · exact hacc y hy

/-- Joining a word list whose head is non-empty is non-empty. -/
theorem joinSep_cons_ne_nil (sep w : Str) (ws : List Str) (hw : w ≠ []) :
    joinSep sep (w :: ws) ≠ [] := by
  cases ws with
  | nil => exact hw
  | cons w2 ws2 =>
    show w ++ sep ++ joinSep sep (w2 :: ws2) ≠ []
    intro h
    rcases List.append_eq_nil.mp h with ⟨h1, _⟩
    rcases List.append_eq_nil.mp h1 with ⟨h2, _⟩
    exact hw h2

/-- A code point of a member word is a code point of the joined string. -/
theorem mem_joinSep {sep : Str} {x : Nat} : ∀ {ws : List Str} {w : Str},
    w ∈ ws → x ∈ w → x ∈ joinSep sep ws := by
  intro ws
  induction ws with
  | nil => intro w hw _; cases hw
  | cons w1 rest ih =>
    intro w hw hx
    cases rest with
    | nil =>
      rcases List.mem_singleton.mp hw with rfl
      exact hx
    | cons w2 rest2 =>
      show x ∈ w1 ++ sep ++ joinSep sep (w2 :: rest2)
      rcases List.mem_cons.mp hw with rfl | hw
      · exact List.mem_append.mpr (Or.inl (List.mem_append.mpr (Or.inl hx)))
      · exact List.mem_append.mpr (Or.inr (ih hw hx))

/-- ASCII upper-casing preserves non-whitespace. -/
theorem isPyWs_upperNat {x : Nat} (h : isPyWs x = false) :
    isPyWs (upperNat x) = false := by
  unfold upperNat
  split_ifs with h1
  · simp only [isPyWs, decide_eq_false_iff_not]
    omega
  · exact h

/-- Capwords of a string holding a non-whitespace character is non-empty and
itself holds a non-whitespace character. -/
theorem capwords_props (l : Str) (h : ∃ c ∈ l, isPyWs c = false) :
    capwords l ≠ [] ∧ ∃ c ∈ capwords l, isPyWs c = false := by
  obtain ⟨w0, rest, hws⟩ : ∃ w0 rest, pySplit l = w0 :: rest := by
    cases hcase : pySplit l with
    | nil => exact absurd hcase (pySplitAux_ne_nil l [] (Or.inl h))
    | cons a b => exact ⟨a, b, rfl⟩
  have hw0mem : w0 ∈ pySplit l := by rw [hws]; exact List.mem_cons_self w0 rest
  have hw0ne : w0 ≠ [] := mem_pySplitAux_ne_nil l [] w0 hw0mem
  obtain ⟨x0, xs0, hw0⟩ : ∃ x0 xs0, w0 = x0 :: xs0 := by
    cases hcase : w0 with
    | nil => exact absurd hcase hw0ne
    | cons a b => exact ⟨a, b, rfl⟩
  have hx0 : isPyWs x0 = false :=
    mem_pySplitAux_no_ws l [] (fun y hy => absurd hy (List.not_mem_nil y)) w0
      hw0mem x0 (hw0 ▸ List.mem_cons_self x0 xs0)
  constructor
  · unfold capwords
    rw [hws, List.map_cons, hw0]
    exact joinSep_cons_ne_nil _ _ _ (List.cons_ne_nil _ _)
  · refine ⟨upperNat x0, ?_, isPyWs_upperNat hx0⟩
    unfold capwords
    rw [hws, List.map_cons, hw0]
    exact mem_joinSep (List.mem_cons_self _ _) (List.mem_cons_self _ _)

/-- Title-casing a string holding a non-whitespace character is
non-empty. -/
theorem to_title_case_ne_nil {l : Str} (h : ∃ c ∈ l, isPyWs c = false) :
    to_title_case l ≠ [] := by
  have hlne : l ≠ [] := by
    rcases h with ⟨c, hc, _⟩
    intro he
    rw [he] at hc
    cases hc
  obtain ⟨hcw_ne, hcw_ex⟩ := capwords_props l h
  obtain ⟨w0, rest, hws⟩ : ∃ w0 rest, pySplit (capwords l) = w0 :: rest := by
    cases hcase : pySplit (capwords l) with
    | nil => exact absurd hcase (pySplitAux_ne_nil _ [] (Or.inl hcw_ex))
    | cons a b => exact ⟨a, b, rfl⟩
  have hw0mem : w0 ∈ pySplit (capwords l) := by
    rw [hws]
    exact List.mem_cons_self w0 rest
  have hw0ne : w0 ≠ [] := mem_pySplitAux_ne_nil (capwords l) [] w0 hw0mem
  rw [to_title_case, if_neg hlne]
  show joinSep (txt " ")
      ((pySplit (capwords l)).enum.map (fun iw =>
        if 1 ≤ iw.1 ∧ iw.2 ∈ special_words then iw.2.map lowerNat else iw.2)) ≠ []
  rw [hws, List.enum_cons, List.map_cons]
  apply joinSep_cons_ne_nil
  show (if 1 ≤ (0, w0).1 ∧ (0, w0).2 ∈ special_words
        then (0, w0).2.map lowerNat else (0, w0).2) ≠ []
  split_ifs with hcond
  · simpa using hw0ne
  · exact hw0ne

/-- Populating a result from a page always marks it found and takes the
page's canonical title, whatever the pageview outcome. -/
theorem populate_from_page_title_found (env : WikiEnv) (info : WikiResult)
    (page : WikiPage) (days : Nat) :
    (populate_from_page env info page days).title = page.title ∧
    (populate_from_page env info page days).found = true := by
  unfold populate_from_page
  cases fetch_page_views env page.title days with
  | inl n => exact ⟨rfl, rfl⟩
  | inr e => exact ⟨rfl, rfl⟩

/-! Claim theorems. -/

/-- C7: `normalize` is idempotent — for every string s,
`normalize_text (normalize_text s) = normalize_text s` — and accent/case
variants map to the same value: the accented spelling of the example word
(pre-composed capital A-ring, o-diaeresis) normalizes to the same string as
its plain lower-case ASCII spelling. -/
theorem normalize_text_idem_and_accent_variants :
    (∀ s : Str, normalize_text (normalize_text s) = normalize_text s) ∧
    normalize_text angstromAccented = normalize_text (txt "angstrom") :=
  ⟨normalize_text_idem, by decide⟩

/-- C8: when the title-cased lookup page does not exist, the resolver returns
found=false, error exactly "Page not found on Wikipedia.", and views and
length absent (and the title is the title-cased input name). -/
theorem get_wikipedia_data_not_found (env : WikiEnv) (e q a : Str) (d : Nat)
    (p : WikiPage) (hf : env.fetchPage (to_title_case e) = .ok p)
    (hx : p.pageExists = false) :
    get_wikipedia_data env e q a d =
      { title := to_title_case e, length := none, views := none, url := none,
        found := false, error := some (txt "Page not found on Wikipedia.") } := by
  simp only [get_wikipedia_data, hf, hx]
  rfl

/-- Witness for C8 at a concrete environment and input. -/
theorem get_wikipedia_data_not_found_w :
    get_wikipedia_data envNotFound (txt "paris") [] [] 365 =
      { title := to_title_case (txt "paris"), length := none, views := none,
        url := none, found := false,
        error := some (txt "Page not found on Wikipedia.") } :=
  get_wikipedia_data_not_found envNotFound (txt "paris") [] [] 365 _ rfl rfl

/-- C5: when the resolver finds an article page but the pageview fetch fails,
the result still has found=true with title, length and url populated from the
article, views is absent, and the error field records the pageview failure. -/
theorem get_wikipedia_data_pageview_failure (env : WikiEnv) (e q a : Str)
    (d : Nat) (p : WikiPage) (m : Str)
    (hf : env.fetchPage (to_title_case e) = .ok p)
    (hx : p.pageExists = true)
    (hd : disambigCategory ∉ p.categories)
    (hv : env.pageviews p.title d = .exn m) :
    get_wikipedia_data env e q a d =
      { title := p.title, length := some p.text.length, views := none,
        url := some p.fullurl, found := true,
        error := some (txt "Pageview fetch error: " ++ m) } := by
  simp only [get_wikipedia_data, hf, hx, if_true]
  rw [if_neg hd]
  simp only [populate_from_page, fetch_page_views, hv]

/-- Witness for C5 at a concrete environment and input. -/
theorem get_wikipedia_data_pageview_failure_w :
    get_wikipedia_data envPvFail (txt "paris") [] [] 365 =
      { title := txt "Paris", length := some (txt "abc").length, views := none,
        url := some (txt "https://en.wikipedia.org/wiki/Paris"), found := true,
        error := some (txt "Pageview fetch error: " ++ txt "timeout") } :=
  get_wikipedia_data_pageview_failure envPvFail (txt "paris") [] [] 365
    pageParis (txt "timeout") rfl rfl (by decide) rfl

/-- C3: the resolver is total by construction (it is a function into
`WikiResult`), and any exception raised by the content provider is converted
into a returned result whose error field carries the descriptive message:
an exception around the initial page fetch yields the unexpected-error
result, and an exception while fetching the page chosen by the
Disambiguation Resolver yields the resolved-page-error result. -/
theorem get_wikipedia_data_exception_converted (env : WikiEnv) (e q a : Str)
    (d : Nat) :
    (∀ m, env.fetchPage (to_title_case e) = .exn m →
      get_wikipedia_data env e q a d =
        { title := to_title_case e, length := none, views := none, url := none,
          found := false, error := some (txt "Unexpected error: " ++ m) }) ∧
    (∀ p sel m, env.fetchPage (to_title_case e) = .ok p →
      p.pageExists = true →
      disambigCategory ∈ p.categories →
      resolve_disambiguation env.clientPresent env.llm (to_title_case e)
        (if p.links = [] then [to_title_case e ++ txt " (disambiguation)"]
         else p.links) q a = some sel →
      env.fetchPage sel = .exn m →
      get_wikipedia_data env e q a d =
        { title := to_title_case e, length := none, views := none, url := none,
          found := false,
          error := some (txt "Error fetching resolved page " ++ [39] ++ sel ++
            [39] ++ txt ": " ++ m) }) := by
  constructor
  · intro m hf
    simp only [get_wikipedia_data, hf]
  · intro p sel m hf hx hdc hr hf2
    simp only [get_wikipedia_data, hf, hx, if_true]
    rw [if_pos hdc]
    simp only [hr, hf2]

/-- Witness for C3: both exception sites at concrete environments. -/
theorem get_wikipedia_data_exception_converted_w :
    get_wikipedia_data envExn (txt "paris") [] [] 365 =
      { title := to_title_case (txt "paris"), length := none, views := none,
        url := none, found := false,
        error := some (txt "Unexpected error: " ++ txt "boom") } ∧
    get_wikipedia_data envResolvedExn (txt "paris") [] [] 365 =
      { title := to_title_case (txt "paris"), length := none, views := none,
        url := none, found := false,
        error := some (txt "Error fetching resolved page " ++ [39] ++ txt "B" ++
          [39] ++ txt ": " ++ txt "boom") } :=
  ⟨(get_wikipedia_data_exception_converted envExn (txt "paris") [] [] 365).1
      (txt "boom") rfl,
   (get_wikipedia_data_exception_converted envResolvedExn (txt "paris") [] []
      365).2 pageDisambigParis (txt "B") (txt "boom") (by decide) rfl
      (by decide) (by decide) (by decide)⟩

/-- C6: the resolver follows at most one level of disambiguation — when the
candidate chosen by the Disambiguation Resolver does not exist or is itself a
disambiguation page, the run ends in the unresolved terminal state with
found=false and the error message naming the original entity and its
options, and no further resolution is attempted. -/
theorem get_wikipedia_data_one_level (env : WikiEnv) (e q a : Str) (d : Nat)
    (p rp : WikiPage) (sel : Str)
    (hf : env.fetchPage (to_title_case e) = .ok p)
    (hx : p.pageExists = true)
    (hdc : disambigCategory ∈ p.categories)
    (hr : resolve_disambiguation env.clientPresent env.llm (to_title_case e)
      (if p.links = [] then [to_title_case e ++ txt " (disambiguation)"]
       else p.links) q a = some sel)
    (hf2 : env.fetchPage sel = .ok rp)
    (hbad : rp.pageExists = false ∨ disambigCategory ∈ rp.categories) :
    get_wikipedia_data env e q a d =
      { title := to_title_case e, length := none, views := none, url := none,
        found := false,
        error := some (disambigErrorMsg (to_title_case e)
          (if p.links = [] then [to_title_case e ++ txt " (disambiguation)"]
           else p.links)) } := by
  simp only [get_wikipedia_data, hf, hx, if_true]
  rw [if_pos hdc]
  simp only [hr, hf2]
  rw [if_neg]
  rintro ⟨h1, h2⟩
  rcases hbad with hb | hb
  · rw [hb] at h1; cases h1
  · exact h2 hb

/-- Witness for C6 at a concrete environment whose chosen candidate is itself
a disambiguation page. -/
theorem get_wikipedia_data_one_level_w :
    get_wikipedia_data envDoubleDisambig (txt "paris") [] [] 365 =
      { title := to_title_case (txt "paris"), length := none, views := none,
        url := none, found := false,
        error := some (disambigErrorMsg (to_title_case (txt "paris"))
          [txt "B"]) } :=
  get_wikipedia_data_one_level envDoubleDisambig (txt "paris") [] [] 365
    pageDisambigParis pageDisambigB (txt "B") (by decide) rfl (by decide)
    (by decide) (by decide) (Or.inr (by decide))

/-- C4: the Disambiguation Resolver returns either absent or a title that
(after the trim-and-strip-quotes cleaning) is a member of the full,
untruncated candidate list — the truncation to 15 options appears only in
the prompt — and it never raises: API errors and any other exception at the
LLM boundary degrade to absent. -/
theorem resolve_disambiguation_sound (cp : Bool) (llm : Str → LlmOutcome)
    (e : Str) (opts : List Str) (q a : Str) :
    (resolve_disambiguation cp llm e opts q a = none ∨
      ∃ t, resolve_disambiguation cp llm e opts q a = some t ∧ t ∈ opts) ∧
    (∀ m, (llm (disambigPrompt e opts q a) = .apiError m ∨
           llm (disambigPrompt e opts q a) = .exn m) →
      resolve_disambiguation cp llm e opts q a = none) := by
  constructor
  · unfold resolve_disambiguation
    split
    · left; rfl
    · cases hllm : llm (disambigPrompt e opts q a) with
      | reply t =>
        by_cases hc : stripChars isQuote (stripWs t) ≠ [] ∧
            stripChars isQuote (stripWs t) ≠ txt "NONE" ∧
            stripChars isQuote (stripWs t) ∈ opts
        · right
          refine ⟨stripChars isQuote (stripWs t), ?_, hc.2.2⟩
          show (if stripChars isQuote (stripWs t) ≠ [] ∧
              stripChars isQuote (stripWs t) ≠ txt "NONE" ∧
              stripChars isQuote (stripWs t) ∈ opts then
              some (stripChars isQuote (stripWs t)) else none) =
            some (stripChars isQuote (stripWs t))
          rw [if_pos hc]
        · left
          show (if stripChars isQuote (stripWs t) ≠ [] ∧
              stripChars isQuote (stripWs t) ≠ txt "NONE" ∧
              stripChars isQuote (stripWs t) ∈ opts then
              some (stripChars isQuote (stripWs t)) else none) = none
          rw [if_neg hc]
      | apiError m => left; rfl
      | exn m => left; rfl
  · intro m hm
    unfold resolve_disambiguation
    split
    · rfl
    · rcases hm with h | h <;> rw [h]

/-- Witness for C4: an API error at the LLM boundary degrades to absent. -/
theorem resolve_disambiguation_sound_w :
    resolve_disambiguation true (fun _ => .apiError (txt "boom")) (txt "X")
      [txt "Y"] [] [] = none :=
  (resolve_disambiguation_sound true (fun _ => .apiError (txt "boom"))
    (txt "X") [txt "Y"] [] []).2 (txt "boom") (Or.inl rfl)

/-- C9: on empty or whitespace-only input the Pair Structurer returns the
valid empty sequence (the some-arm, distinct from the failure signal `none`)
for every oracle environment — in particular its result never consults the
LLM oracle on such input. -/
theorem structure_qa_pairs_blank (env : QaEnv) (input : Str)
    (h : stripWs input = []) : structure_qa_pairs env input = some [] := by
  unfold structure_qa_pairs
  rw [if_pos h]

/-- Witness for C9 on whitespace-only input under an environment whose
oracles only fail. -/
theorem structure_qa_pairs_blank_w :
    structure_qa_pairs ⟨fun _ => .exn (txt "no call expected"), fun _ => none⟩
      (txt "  ") = some [] :=
  structure_qa_pairs_blank
    ⟨fun _ => .exn (txt "no call expected"), fun _ => none⟩ (txt "  ")
    (by decide)

/-- C1 counterexample: with the candidate sequence Paris then PARIS — both
normalizing to the same key — the merge retains the surface form PARIS, the
last-seen spelling, while the claim predicts the first-seen spelling
Paris. -/
theorem combined_entities_first_seen_cex :
    lookupKey (combined_entities [some (txt "Paris"), some (txt "PARIS")])
        (normalize_text (txt "Paris")) = some (txt "PARIS") ∧
    firstSurface [some (txt "Paris"), some (txt "PARIS")]
        (normalize_text (txt "Paris")) = some (txt "Paris") ∧
    txt "PARIS" ≠ txt "Paris" := by decide

/-- C1 (amended): for every candidate sequence and key, the surface form the
merge step retains under that key is the last-seen non-empty original
spelling normalizing to it (the dict assignment overwrites the value on
every later hit of the key). -/
theorem combined_entities_last_seen (cs : List (Option Str)) (k : Str) :
    lookupKey (combined_entities cs) k = lastSurface cs k := by
  unfold combined_entities lastSurface
  exact merge_foldl_lookup cs [] k

/-- C10: two non-empty strings with no ASCII code point after NFKD
decomposition both normalize to the empty string, are the same entity under
`sameEntity`, and the merge step collapses them into a single entry under the
empty normalized key. -/
theorem nonascii_entities_collapse (a b : Str) (ha : a ≠ []) (hb : b ≠ [])
    (hna : ∀ c ∈ a.flatMap nfkdNat, ¬ c < 128)
    (hnb : ∀ c ∈ b.flatMap nfkdNat, ¬ c < 128) :
    normalize_text a = [] ∧ normalize_text b = [] ∧ sameEntity a b = true ∧
    combined_entities [some a, some b] = [([], b)] := by
  have hza : normalize_text a = [] := by
    rw [normalize_text, if_neg ha,
      List.filter_eq_nil_iff.mpr (fun c hc => by simpa using hna c hc)]
    rfl
  have hzb : normalize_text b = [] := by
    rw [normalize_text, if_neg hb,
      List.filter_eq_nil_iff.mpr (fun c hc => by simpa using hnb c hc)]
    rfl
  refine ⟨hza, hzb, ?_, ?_⟩
  · unfold sameEntity
    rw [hza, hzb]
    rfl
  · unfold combined_entities
    simp only [List.foldl_cons, List.foldl_nil]
    rw [if_pos ha, hza, if_pos hb, hzb]
    rfl

/-- C2 counterexample: for the empty input entity name the resolver returns
a WikiResult whose title is the empty string (title-casing the empty name
yields the empty string), so the title is not non-empty for every input
name. -/
theorem get_wikipedia_data_title_empty_cex :
    (get_wikipedia_data envNotFound [] [] [] 365).title = [] := by decide

/-- C2 (amended): for every input entity name containing at least one
non-whitespace character, under a content provider whose pages carry
non-empty canonical titles, the returned WikiResult has a non-empty title;
and whenever resolution fails (found=false) the title equals the title-cased
input name. -/
theorem get_wikipedia_data_title_nonempty (env : WikiEnv) (e q a : Str)
    (d : Nat) (hws : ∃ c ∈ e, isPyWs c = false)
    (ht : ∀ s p, env.fetchPage s = .ok p → p.title ≠ []) :
    (get_wikipedia_data env e q a d).title ≠ [] ∧
    ((get_wikipedia_data env e q a d).found = false →
      (get_wikipedia_data env e q a d).title = to_title_case e) := by
  have httc := to_title_case_ne_nil hws
  cases hf : env.fetchPage (to_title_case e) with
  | exn m =>
    have hres : get_wikipedia_data env e q a d =
        { title := to_title_case e, length := none, views := none,
          url := none, found := false,
          error := some (txt "Unexpected error: " ++ m) } := by
      simp only [get_wikipedia_data, hf]
    rw [hres]
    exact ⟨httc, fun _ => rfl⟩
  | ok p =>
    by_cases hex : p.pageExists = true
    · by_cases hdc : disambigCategory ∈ p.categories
      · cases hr : resolve_disambiguation env.clientPresent env.llm
            (to_title_case e)
            (if p.links = [] then [to_title_case e ++ txt " (disambiguation)"]
             else p.links) q a with
        | none =>
          have hres : get_wikipedia_data env e q a d =
              { title := to_title_case e, length := none, views := none,
                url := none, found := false,
                error := some (disambigErrorMsg (to_title_case e)
                  (if p.links = []
                   then [to_title_case e ++ txt " (disambiguation)"]
                   else p.links)) } := by
            simp only [get_wikipedia_data, hf, hex, if_true]
            rw [if_pos hdc]
            simp only [hr]
          rw [hres]
          exact ⟨httc, fun _ => rfl⟩
        | some sel =>
          cases hf2 : env.fetchPage sel with
          | exn m =>
            have hres : get_wikipedia_data env e q a d =
                { title := to_title_case e, length := none, views := none,
                  url := none, found := false,
                  error := some (txt "Error fetching resolved page " ++ [39] ++
                    sel ++ [39] ++ txt ": " ++ m) } := by
              simp only [get_wikipedia_data, hf, hex, if_true]
              rw [if_pos hdc]
              simp only [hr, hf2]
            rw [hres]
            exact ⟨httc, fun _ => rfl⟩
          | ok rp =>
            by_cases hgood : rp.pageExists = true ∧
                disambigCategory ∉ rp.categories
            · have hres : get_wikipedia_data env e q a d =
                  populate_from_page env
                    { title := to_title_case e, length := none, views := none,
                      url := none, found := false, error := none } rp d := by
                simp only [get_wikipedia_data, hf, hex, if_true]
                rw [if_pos hdc]
                simp only [hr, hf2]
                rw [if_pos hgood]
              obtain ⟨ht1, ht2⟩ := populate_from_page_title_found env
                { title := to_title_case e, length := none, views := none,
                  url := none, found := false, error := none } rp d
              rw [hres]
              constructor
              · rw [ht1]
                exact ht sel rp hf2
              · intro hfo
                rw [ht2] at hfo
                cases hfo
            · have hres : get_wikipedia_data env e q a d =
                  { title := to_title_case e, length := none, views := none,
                    url := none, found := false,
                    error := some (disambigErrorMsg (to_title_case e)
                      (if p.links = []
                       then [to_title_case e ++ txt " (disambiguation)"]
                       else p.links)) } := by
                simp only [get_wikipedia_data, hf, hex, if_true]
                rw [if_pos hdc]
                simp only [hr, hf2]
                rw [if_neg hgood]
              rw [hres]
              exact ⟨httc, fun _ => rfl⟩
      · have hres : get_wikipedia_data env e q a d =
            populate_from_page env
              { title := to_title_case e, length := none, views := none,
                url := none, found := false, error := none } p d := by
          simp only [get_wikipedia_data, hf, hex, if_true]
          rw [if_neg hdc]
        obtain ⟨ht1, ht2⟩ := populate_from_page_title_found env
          { title := to_title_case e, length := none, views := none,
            url := none, found := false, error := none } p d
        rw [hres]
        constructor
        · rw [ht1]
          exact ht (to_title_case e) p hf
        · intro hfo
          rw [ht2] at hfo
          cases hfo
    · have hexf : p.pageExists = false := Bool.eq_false_iff.mpr hex
      have hres : get_wikipedia_data env e q a d =
          { title := to_title_case e, length := none, views := none,
            url := none, found := false,
            error := some (txt "Page not found on Wikipedia.") } := by
        simp only [get_wikipedia_data, hf, hexf]
        rfl
      rw [hres]
      exact ⟨httc, fun _ => rfl⟩

/-- Witness for C2 (amended) at a concrete environment whose pages carry
non-empty titles. -/
theorem get_wikipedia_data_title_nonempty_w :
    (get_wikipedia_data envPvFail (txt "paris") [] [] 365).title ≠ [] ∧
    ((get_wikipedia_data envPvFail (txt "paris") [] [] 365).found = false →
      (get_wikipedia_data envPvFail (txt "paris") [] [] 365).title =
        to_title_case (txt "paris")) :=
  get_wikipedia_data_title_nonempty envPvFail (txt "paris") [] [] 365
    ⟨112, by decide, by decide⟩
    (fun s p hp => by
      have hp2 : Fetch.ok pageParis = Fetch.ok p := hp
      injection hp2 with h
      rw [← h]
      decide)

/-- Witness for C10 at two concrete one-character non-Latin strings (a
Cyrillic letter, code 1044, and a Greek letter, code 960). -/
theorem nonascii_entities_collapse_w :
    normalize_text [1044] = [] ∧ normalize_text [960] = [] ∧
    sameEntity [1044] [960] = true ∧
    combined_entities [some [1044], some [960]] = [([], [960])] :=
  nonascii_entities_collapse [1044] [960] (by decide) (by decide)
    (by decide) (by decide)

end ViewFinder
